import Mathlib

/-!
Verification of the per-bin interpolation engine `nb.binterpolate~`
(`src/nb.binterpolate~.c`) against its natural-language specification.

The C code is shallowly embedded: C `float`/`double` values are modelled as
exact rationals (`ℚ`), C integers as `ℤ`, the per-bin atom tables as total
functions `ℤ → ℚ` / `ℤ → ℤ` (index-safety claims are settled through
explicit accessed-index lists that record which table slots each pass
touches), and the `random()`-derived scale factor is passed in explicitly
as a rational in `[0,1]` so that the draw is a pure function.
-/

namespace BInterpolate

/-- The Max SDK `CLAMP(v, lo, hi)` macro on floating-point operands:
`(v) < (lo) ? (lo) : ((v) > (hi) ? (hi) : (v))`. -/
def clampQ (v lo hi : ℚ) : ℚ :=
  if v < lo then lo else if hi < v then hi else v

/-- The Max SDK `CLAMP(v, lo, hi)` macro on integer operands. -/
def clampZ (v lo hi : ℤ) : ℤ :=
  if v < lo then lo else if hi < v then hi else v

/-- C floating-point-to-int conversion: truncation toward zero. -/
def ratTrunc (q : ℚ) : ℤ :=
  if 0 ≤ q then ⌊q⌋ else ⌈q⌉

/-- Embedding of `irand(min, max)` (line 212): `min + ((float)scale * (float)(max-min))`
where `scale = (float)random()/(float)RAND_MAX ∈ [0,1]`; the float result
is truncated to `int` at the return. The scale is passed in explicitly. -/
def irand (mn mx : ℤ) (scale : ℚ) : ℤ :=
  ratTrunc ((mn : ℚ) + scale * ((mx : ℚ) - (mn : ℚ)))

/-- Embedding of `secondsToFrames(seconds, sampleRate, fftSize)` (line 232):
`(int)((seconds * sampleRate) / fftSize)` — float division then a
truncating cast to `int`. -/
def secondsToFrames (seconds : ℚ) (sampleRate : ℤ) (fftSize : ℤ) : ℤ :=
  ratTrunc (seconds * (sampleRate : ℚ) / (fftSize : ℚ))

/-- The engine state `t_interp` (line 25): the scalar configuration fields
and the nine per-bin atom tables, each table one slot per FFT bin.
`updateTargetFlag` models the `updateTarget` atom array (longs used as
booleans); `fftSize` is stored as `double` in C but always holds an
integral bin count, so it is carried as `ℤ`. -/
structure Interp where
  fftSize : ℤ
  sampleRate : ℤ
  currMag : ℤ → ℚ
  currPhase : ℤ → ℚ
  targetMag : ℤ → ℚ
  targetPhase : ℤ → ℚ
  incMag : ℤ → ℚ
  incPhase : ℤ → ℚ
  totalFrames : ℤ → ℤ
  frameCount : ℤ → ℤ
  updateTargetFlag : ℤ → ℤ
  interpLengthSecs : ℚ
  interpVarianceSecs : ℚ
  interpLengthFrames : ℤ
  interpVarianceFrames : ℤ
  interpMin : ℤ
  interpMax : ℤ

/-- Constants `MIN_LENGTH`/`MAX_LENGTH` (lines 18-19). -/
def MIN_LENGTH : ℚ := 0
def MAX_LENGTH : ℚ := 30

/-- Constants `MIN_VARIANCE`/`MAX_VARIANCE` (lines 21-22). -/
def MIN_VARIANCE : ℚ := 0
def MAX_VARIANCE : ℚ := 15

/-- Constant `MIN_INTERP_FRAMES` (line 23). -/
def MIN_INTERP_FRAMES : ℤ := 1

/-- Embedding of `setInterpolationTime` (line 239): clamps both seconds inputs,
recomputes `interpLengthFrames` (floored to `MIN_INTERP_FRAMES`),
`interpVarianceFrames`, and the `interpMin`/`interpMax` draw range. -/
def setInterpolationTime (x : Interp) (interpLengthSecs interpVarianceSecs : ℚ) :
    Interp :=
  let lenSecs := clampQ interpLengthSecs MIN_LENGTH MAX_LENGTH
  let lenFrames0 := secondsToFrames lenSecs x.sampleRate x.fftSize
  let lenFrames := if lenFrames0 < MIN_INTERP_FRAMES then MIN_INTERP_FRAMES else lenFrames0
  let varSecs := clampQ interpVarianceSecs MIN_VARIANCE MAX_VARIANCE
  let varFrames := secondsToFrames varSecs x.sampleRate x.fftSize
  let minVar := lenFrames - varFrames
  { x with
    interpLengthSecs := lenSecs
    interpLengthFrames := lenFrames
    interpVarianceSecs := varSecs
    interpVarianceFrames := varFrames
    interpMin := if minVar ≤ 0 then 1 else minVar
    interpMax := lenFrames + varFrames }

/-- Embedding of `interp_new` (line 96): records the host sample rate and FFT size,
applies `setInterpolationTime` with the (argument-supplied or default)
length and variance, and allocates the nine per-bin tables with
`sysmem_newptrclear`, i.e. zero-filled. The zero-initialised scalar
timing fields are all overwritten by the embedded `setInterpolationTime`
call, matching the C constructor. -/
def interp_new (sampleRate fftSize : ℤ) (interpLength interpVariance : ℚ) :
    Interp :=
  let x0 : Interp :=
    { fftSize := fftSize
      sampleRate := sampleRate
      currMag := fun _ => 0
      currPhase := fun _ => 0
      targetMag := fun _ => 0
      targetPhase := fun _ => 0
      incMag := fun _ => 0
      incPhase := fun _ => 0
      totalFrames := fun _ => 0
      frameCount := fun _ => 0
      updateTargetFlag := fun _ => 0
      interpLengthSecs := 0
      interpVarianceSecs := 0
      interpLengthFrames := 0
      interpVarianceFrames := 0
      interpMin := 0
      interpMax := 0 }
  setInterpolationTime x0 interpLength interpVariance

/-- Embedding of `interp_dsp64` (line 289): stores the host-reported sample rate and
sets the `updateTarget` flag of every bin `0 ≤ i < fftSize` to `1`.  It
performs no other state change (in particular it does not recompute the
derived frame counts). -/
def interp_dsp64 (x : Interp) (samplerate : ℤ) : Interp :=
  { x with
    sampleRate := samplerate
    updateTargetFlag := fun i =>
      if 0 ≤ i ∧ i < x.fftSize then 1 else x.updateTargetFlag i }

/-- The bin resolved by `updateTarget` (line 264):
`int bin = CLAMP(fftBin, 0, x->fftSize-1)` — the clamp runs on `double`
operands, then the assignment to `int` truncates. -/
def resolveBinTarget (x : Interp) (fftBin : ℚ) : ℤ :=
  ratTrunc (clampQ fftBin 0 ((x.fftSize : ℚ) - 1))

/-- The bin resolved by the step pass (line 332):
`int bin = CLAMP((int)(in_index[k]), 0, x->fftSize-1)` — the truncating
cast runs first, then the clamp on integral values. -/
def resolveBinStep (x : Interp) (idx : ℚ) : ℤ :=
  clampZ (ratTrunc idx) 0 (x.fftSize - 1)

/-- Embedding of `updateTarget` (line 262): stores the new target pair at the resolved
bin, draws `totalFrames` with `irand(interpMin, interpMax)` (the random
scale is an explicit argument), derives the per-frame increments by
dividing the deltas from the bin's *current* values by the freshly drawn
`totalFrames`, and clears the bin's `updateTarget` flag and `frameCount`. -/
def updateTarget (x : Interp) (mag phase fftBin scale : ℚ) : Interp :=
  let bin := resolveBinTarget x fftBin
  let tf := irand x.interpMin x.interpMax scale
  let magDelta := (mag - x.currMag bin) / (tf : ℚ)
  let phaseDelta := (phase - x.currPhase bin) / (tf : ℚ)
  { x with
    targetMag := Function.update x.targetMag bin mag
    targetPhase := Function.update x.targetPhase bin phase
    totalFrames := Function.update x.totalFrames bin tf
    incMag := Function.update x.incMag bin magDelta
    incPhase := Function.update x.incPhase bin phaseDelta
    updateTargetFlag := Function.update x.updateTargetFlag bin 0
    frameCount := Function.update x.frameCount bin 0 }

/-- The carry step of the refresh pass (lines 319-320): the old target
at position `i` becomes the new interpolation starting point at
position `i`. -/
def carryTarget (x : Interp) (i : ℤ) : Interp :=
  { x with
    currMag := Function.update x.currMag i (x.targetMag i)
    currPhase := Function.update x.currPhase i (x.targetPhase i) }

/-- One iteration of the target-refresh pass of `interp_perform64`
(lines 316-325) at sample position `i`: if `updateTarget[i]` is set
(the vacuous pointer non-null test aside), carry the old target at
position `i` into `curr` at position `i`, then call `updateTarget` with
the block's inputs at position `i` — in particular the bin argument is
the *bin-index input* `in_index[i]`. -/
def refreshStep (inMag inPhase inIndex scales : ℕ → ℚ) (x : Interp) (i : ℕ) :
    Interp :=
  if x.updateTargetFlag (i : ℤ) ≠ 0 then
    updateTarget (carryTarget x (i : ℤ)) (inMag i) (inPhase i) (inIndex i) (scales i)
  else x

/-- The whole target-refresh pass: the `for` loop of lines 316-325 over
sample positions `0, 1, ..., sampleframes-1`. -/
def refreshPass (inMag inPhase inIndex scales : ℕ → ℚ) (x : Interp)
    (sampleframes : ℕ) : Interp :=
  (List.range sampleframes).foldl (refreshStep inMag inPhase inIndex scales) x

/-- One iteration of the step pass of `interp_perform64` (lines 329-352)
at sample position `k`: resolve the bin by truncating and clamping
`in_index[k]`, add the bin's increments to its `curr` values, emit the
updated pair, then advance `frameCount` and raise the bin's
`updateTarget` flag (resetting `frameCount`) once the leg is complete.
Returns the new state and the two emitted output samples. -/
def performStepSample (x : Interp) (idx : ℚ) : Interp × ℚ × ℚ :=
  let bin := resolveBinStep x idx
  let cm := x.currMag bin + x.incMag bin
  let cp := x.currPhase bin + x.incPhase bin
  let x1 := { x with
    currMag := Function.update x.currMag bin cm
    currPhase := Function.update x.currPhase bin cp }
  let framePos := x.frameCount bin + 1
  let x2 := { x1 with frameCount := Function.update x1.frameCount bin framePos }
  let x3 :=
    if x2.totalFrames bin ≤ framePos then
      { x2 with
        updateTargetFlag := Function.update x2.updateTargetFlag bin 1
        frameCount := Function.update x2.frameCount bin 0 }
    else x2
  (x3, cm, cp)

/-- The whole step pass: the `while (n--)` loop of lines 329-352,
accumulating the two output streams in order. -/
def stepPass (inIndex : ℕ → ℚ) (x : Interp) (sampleframes : ℕ) :
    Interp × List ℚ × List ℚ :=
  (List.range sampleframes).foldl
    (fun acc k =>
      let r := performStepSample acc.1 (inIndex k)
      (r.1, acc.2.1 ++ [r.2.1], acc.2.2 ++ [r.2.2]))
    (x, [], [])

/-- Embedding of `interp_perform64` (line 303): the target-refresh pass followed by
the step pass over one block of `sampleframes` input triplets. -/
def interp_perform64 (x : Interp) (inMag inPhase inIndex scales : ℕ → ℚ)
    (sampleframes : ℕ) : Interp × List ℚ × List ℚ :=
  stepPass inIndex (refreshPass inMag inPhase inIndex scales x sampleframes)
    sampleframes

/-- Table slots touched by the body of `updateTarget` (lines 265-279):
every access — `targetMag`, `targetPhase`, `totalFrames`, `currMag`,
`currPhase`, `incMag`, `incPhase`, `updateTarget`, `frameCount` — is at
the single resolved bin. -/
def updateTargetAccesses (x : Interp) (fftBin : ℚ) : List ℤ :=
  [resolveBinTarget x fftBin]

/-- Table slots touched by one step-pass iteration (lines 332-351):
every access is at the single clamped bin. -/
def stepPassSampleAccesses (x : Interp) (idx : ℚ) : List ℤ :=
  [resolveBinStep x idx]

/-- Table slots read or written at sample positions by the target-refresh
pass (lines 317-320): `updateTarget+i`, `currMag+i`, `currPhase+i`,
`targetMag+i`, `targetPhase+i`, at the unclamped index `i` for every `i`
in `[0, sampleframes)`. -/
def refreshPassPositionAccesses (sampleframes : ℕ) : List ℤ :=
  (List.range sampleframes).map (fun (i : ℕ) => (i : ℤ))

/-- The state component of one step-pass iteration, for reasoning about
repeated stepping of a leg. -/
def performStepState (idx : ℚ) (x : Interp) : Interp :=
  (performStepSample x idx).1

/-- A concrete 4-bin engine whose sample position 0 is due for a refresh
while the bin-index input at position 0 names bin 3: every target is 5,
only position 0's flag is raised. -/
def refreshExampleState : Interp :=
  { interp_new 44100 4 10 2 with
    targetMag := fun _ => 5
    updateTargetFlag := fun j => if j = 0 then 1 else 0 }

/-- A concrete 4-bin engine mid-leg: every bin sits at magnitude 1 and
phase 0 with increments 1/2 and 1/4, i.e. a leg of length 2 toward
magnitude 2 and phase 1/2. -/
def linearExampleState : Interp :=
  { interp_new 44100 4 10 2 with
    currMag := fun _ => 1
    incMag := fun _ => 1/2
    currPhase := fun _ => 0
    incPhase := fun _ => 1/4 }

/-! ### Basic lemmas about the arithmetic helpers -/

lemma clampQ_bounds (v lo hi : ℚ) (h : lo ≤ hi) :
    lo ≤ clampQ v lo hi ∧ clampQ v lo hi ≤ hi := by
  unfold clampQ
  split_ifs <;> constructor <;> linarith

lemma ratTrunc_intCast (n : ℤ) : ratTrunc (n : ℚ) = n := by
  unfold ratTrunc
  split_ifs <;> simp

lemma ratTrunc_bounds (a b : ℤ) (q : ℚ) (h1 : (a : ℚ) ≤ q) (h2 : q ≤ (b : ℚ)) :
    a ≤ ratTrunc q ∧ ratTrunc q ≤ b := by
  unfold ratTrunc
  split_ifs with h
  · exact ⟨Int.le_floor.mpr h1, by
      have := Int.floor_le_floor h2
      simpa using this⟩
  · refine ⟨?_, Int.ceil_le.mpr h2⟩
    have := Int.ceil_le_ceil h1
    simpa using this

lemma ratTrunc_nonneg (q : ℚ) (h : 0 ≤ q) : 0 ≤ ratTrunc q := by
  have := ratTrunc_bounds 0 ⌈q⌉ q (by exact_mod_cast h) (Int.le_ceil q)
  exact this.1

lemma secondsToFrames_nonneg (s : ℚ) (sr N : ℤ) (hs : 0 ≤ s) (hsr : 0 ≤ sr)
    (hN : 0 ≤ N) : 0 ≤ secondsToFrames s sr N := by
  unfold secondsToFrames
  apply ratTrunc_nonneg
  apply div_nonneg
  · exact mul_nonneg hs (by exact_mod_cast hsr)
  · exact_mod_cast hN

/-! ### Lemmas about `setInterpolationTime` -/

lemma setInterpolationTime_lengthFrames (x : Interp) (l v : ℚ) :
    (setInterpolationTime x l v).interpLengthFrames =
      max (secondsToFrames (clampQ l MIN_LENGTH MAX_LENGTH) x.sampleRate x.fftSize)
        MIN_INTERP_FRAMES := by
  simp only [setInterpolationTime, MIN_INTERP_FRAMES]
  split_ifs with h <;> omega

lemma setInterpolationTime_varianceFrames (x : Interp) (l v : ℚ) :
    (setInterpolationTime x l v).interpVarianceFrames =
      secondsToFrames (clampQ v MIN_VARIANCE MAX_VARIANCE) x.sampleRate x.fftSize := by
  simp only [setInterpolationTime]

lemma setInterpolationTime_min (x : Interp) (l v : ℚ) :
    (setInterpolationTime x l v).interpMin =
      max ((setInterpolationTime x l v).interpLengthFrames -
        (setInterpolationTime x l v).interpVarianceFrames) 1 := by
  simp only [setInterpolationTime]
  split_ifs with h <;> omega

lemma setInterpolationTime_max (x : Interp) (l v : ℚ) :
    (setInterpolationTime x l v).interpMax =
      (setInterpolationTime x l v).interpLengthFrames +
        (setInterpolationTime x l v).interpVarianceFrames := by
  simp only [setInterpolationTime]

lemma setInterpolationTime_lengthFrames_pos (x : Interp) (l v : ℚ) :
    1 ≤ (setInterpolationTime x l v).interpLengthFrames := by
  rw [setInterpolationTime_lengthFrames]
  simp [MIN_INTERP_FRAMES]

lemma setInterpolationTime_varianceFrames_nonneg (x : Interp) (l v : ℚ)
    (hsr : 0 ≤ x.sampleRate) (hN : 0 ≤ x.fftSize) :
    0 ≤ (setInterpolationTime x l v).interpVarianceFrames := by
  rw [setInterpolationTime_varianceFrames]
  apply secondsToFrames_nonneg _ _ _ _ hsr hN
  exact (clampQ_bounds v MIN_VARIANCE MAX_VARIANCE (by norm_num [MIN_VARIANCE, MAX_VARIANCE])).1

lemma setInterpolationTime_invariant (x : Interp) (l v : ℚ)
    (hsr : 0 ≤ x.sampleRate) (hN : 0 ≤ x.fftSize) :
    1 ≤ (setInterpolationTime x l v).interpMin ∧
      (setInterpolationTime x l v).interpMin ≤ (setInterpolationTime x l v).interpMax := by
  have hlen := setInterpolationTime_lengthFrames_pos x l v
  have hvar := setInterpolationTime_varianceFrames_nonneg x l v hsr hN
  rw [setInterpolationTime_min, setInterpolationTime_max]
  omega

/-! ### Lemmas about the random draw and bin resolution -/

lemma irand_bounds (mn mx : ℤ) (scale : ℚ) (h : mn ≤ mx) (h0 : 0 ≤ scale)
    (h1 : scale ≤ 1) : mn ≤ irand mn mx scale ∧ irand mn mx scale ≤ mx := by
  unfold irand
  have hd : (0 : ℚ) ≤ (mx : ℚ) - (mn : ℚ) := by
    have : (mn : ℚ) ≤ (mx : ℚ) := by exact_mod_cast h
    linarith
  refine ratTrunc_bounds mn mx _ ?_ ?_
  · nlinarith
  · nlinarith

lemma irand_degenerate (mn : ℤ) (scale : ℚ) : irand mn mn scale = mn := by
  unfold irand
  simpa using ratTrunc_intCast mn

lemma clampZ_bounds (v lo hi : ℤ) (h : lo ≤ hi) :
    lo ≤ clampZ v lo hi ∧ clampZ v lo hi ≤ hi := by
  unfold clampZ
  split_ifs <;> omega

lemma resolveBinStep_bounds (x : Interp) (idx : ℚ) (hN : 1 ≤ x.fftSize) :
    0 ≤ resolveBinStep x idx ∧ resolveBinStep x idx ≤ x.fftSize - 1 :=
  clampZ_bounds _ 0 (x.fftSize - 1) (by omega)

lemma resolveBinTarget_bounds (x : Interp) (fftBin : ℚ) (hN : 1 ≤ x.fftSize) :
    0 ≤ resolveBinTarget x fftBin ∧ resolveBinTarget x fftBin ≤ x.fftSize - 1 := by
  unfold resolveBinTarget
  have hq : (0 : ℚ) ≤ (x.fftSize : ℚ) - 1 := by
    have : (1 : ℚ) ≤ (x.fftSize : ℚ) := by exact_mod_cast hN
    linarith
  have hb := clampQ_bounds fftBin 0 ((x.fftSize : ℚ) - 1) hq
  refine ratTrunc_bounds 0 (x.fftSize - 1) _ (by exact_mod_cast hb.1) ?_
  have := hb.2
  push_cast
  linarith

/-! ### Projection lemmas for `updateTarget`, `carryTarget`, `refreshStep` -/

lemma resolveBinTarget_congr (y x : Interp) (v : ℚ) (h : y.fftSize = x.fftSize) :
    resolveBinTarget y v = resolveBinTarget x v := by
  unfold resolveBinTarget
  rw [h]

lemma updateTarget_fftSize (y : Interp) (m p fb s : ℚ) :
    (updateTarget y m p fb s).fftSize = y.fftSize := rfl

lemma updateTarget_currMag (y : Interp) (m p fb s : ℚ) :
    (updateTarget y m p fb s).currMag = y.currMag := rfl

lemma updateTarget_currPhase (y : Interp) (m p fb s : ℚ) :
    (updateTarget y m p fb s).currPhase = y.currPhase := rfl

lemma updateTarget_targetMag (y : Interp) (m p fb s : ℚ) :
    (updateTarget y m p fb s).targetMag =
      Function.update y.targetMag (resolveBinTarget y fb) m := rfl

lemma updateTarget_targetPhase (y : Interp) (m p fb s : ℚ) :
    (updateTarget y m p fb s).targetPhase =
      Function.update y.targetPhase (resolveBinTarget y fb) p := rfl

lemma updateTarget_totalFrames (y : Interp) (m p fb s : ℚ) :
    (updateTarget y m p fb s).totalFrames =
      Function.update y.totalFrames (resolveBinTarget y fb)
        (irand y.interpMin y.interpMax s) := rfl

lemma updateTarget_incMag (y : Interp) (m p fb s : ℚ) :
    (updateTarget y m p fb s).incMag =
      Function.update y.incMag (resolveBinTarget y fb)
        ((m - y.currMag (resolveBinTarget y fb)) /
          ((irand y.interpMin y.interpMax s : ℤ) : ℚ)) := rfl

lemma updateTarget_incPhase (y : Interp) (m p fb s : ℚ) :
    (updateTarget y m p fb s).incPhase =
      Function.update y.incPhase (resolveBinTarget y fb)
        ((p - y.currPhase (resolveBinTarget y fb)) /
          ((irand y.interpMin y.interpMax s : ℤ) : ℚ)) := rfl

lemma updateTarget_flag (y : Interp) (m p fb s : ℚ) :
    (updateTarget y m p fb s).updateTargetFlag =
      Function.update y.updateTargetFlag (resolveBinTarget y fb) 0 := rfl

lemma updateTarget_frameCount (y : Interp) (m p fb s : ℚ) :
    (updateTarget y m p fb s).frameCount =
      Function.update y.frameCount (resolveBinTarget y fb) 0 := rfl

lemma carryTarget_fftSize (x : Interp) (i : ℤ) :
    (carryTarget x i).fftSize = x.fftSize := rfl

lemma carryTarget_currMag_self (x : Interp) (i : ℤ) :
    (carryTarget x i).currMag i = x.targetMag i := by
  simp [carryTarget]

lemma carryTarget_currPhase_self (x : Interp) (i : ℤ) :
    (carryTarget x i).currPhase i = x.targetPhase i := by
  simp [carryTarget]

lemma resolveBinStep_congr (y x : Interp) (v : ℚ) (h : y.fftSize = x.fftSize) :
    resolveBinStep y v = resolveBinStep x v := by
  unfold resolveBinStep
  rw [h]

lemma performStepState_fftSize (idx : ℚ) (x : Interp) :
    (performStepState idx x).fftSize = x.fftSize := by
  unfold performStepState performStepSample
  dsimp only
  split <;> rfl

lemma performStepState_incMag (idx : ℚ) (x : Interp) :
    (performStepState idx x).incMag = x.incMag := by
  unfold performStepState performStepSample
  dsimp only
  split <;> rfl

lemma performStepState_incPhase (idx : ℚ) (x : Interp) :
    (performStepState idx x).incPhase = x.incPhase := by
  unfold performStepState performStepSample
  dsimp only
  split <;> rfl

lemma performStepState_currMag_at (idx : ℚ) (x : Interp) (b : ℤ)
    (hb : resolveBinStep x idx = b) :
    (performStepState idx x).currMag b = x.currMag b + x.incMag b := by
  unfold performStepState performStepSample
  dsimp only
  split <;> (rw [hb]; simp)

lemma performStepState_currPhase_at (idx : ℚ) (x : Interp) (b : ℤ)
    (hb : resolveBinStep x idx = b) :
    (performStepState idx x).currPhase b = x.currPhase b + x.incPhase b := by
  unfold performStepState performStepSample
  dsimp only
  split <;> (rw [hb]; simp)

lemma iterate_performStep_fftSize (idx : ℚ) (x : Interp) (k : ℕ) :
    ((performStepState idx)^[k] x).fftSize = x.fftSize := by
  induction k with
  | zero => rfl
  | succ n ih => rw [Function.iterate_succ_apply', performStepState_fftSize, ih]

lemma iterate_performStep_incMag (idx : ℚ) (x : Interp) (k : ℕ) :
    ((performStepState idx)^[k] x).incMag = x.incMag := by
  induction k with
  | zero => rfl
  | succ n ih => rw [Function.iterate_succ_apply', performStepState_incMag, ih]

lemma iterate_performStep_incPhase (idx : ℚ) (x : Interp) (k : ℕ) :
    ((performStepState idx)^[k] x).incPhase = x.incPhase := by
  induction k with
  | zero => rfl
  | succ n ih => rw [Function.iterate_succ_apply', performStepState_incPhase, ih]

lemma iterate_performStep_currMag (idx : ℚ) (x : Interp) (b : ℤ)
    (hb : resolveBinStep x idx = b) (k : ℕ) :
    ((performStepState idx)^[k] x).currMag b = x.currMag b + k * x.incMag b := by
  induction k with
  | zero => simp
  | succ n ih =>
    have hbn : resolveBinStep ((performStepState idx)^[n] x) idx = b := by
      rw [resolveBinStep_congr _ x _ (iterate_performStep_fftSize idx x n)]
      exact hb
    rw [Function.iterate_succ_apply', performStepState_currMag_at _ _ _ hbn, ih,
      iterate_performStep_incMag]
    push_cast
    ring

lemma iterate_performStep_currPhase (idx : ℚ) (x : Interp) (b : ℤ)
    (hb : resolveBinStep x idx = b) (k : ℕ) :
    ((performStepState idx)^[k] x).currPhase b = x.currPhase b + k * x.incPhase b := by
  induction k with
  | zero => simp
  | succ n ih =>
    have hbn : resolveBinStep ((performStepState idx)^[n] x) idx = b := by
      rw [resolveBinStep_congr _ x _ (iterate_performStep_fftSize idx x n)]
      exact hb
    rw [Function.iterate_succ_apply', performStepState_currPhase_at _ _ _ hbn, ih,
      iterate_performStep_incPhase]
    push_cast
    ring

lemma refreshStep_eq (inMag inPhase inIndex scales : ℕ → ℚ) (x : Interp) (i : ℕ)
    (hflag : x.updateTargetFlag (i : ℤ) ≠ 0) :
    refreshStep inMag inPhase inIndex scales x i =
      updateTarget (carryTarget x (i : ℤ)) (inMag i) (inPhase i) (inIndex i)
        (scales i) := by
  unfold refreshStep
  rw [if_pos hflag]

lemma mem_refreshPassPositionAccesses (n : ℕ) (j : ℤ) :
    j ∈ refreshPassPositionAccesses n ↔ 0 ≤ j ∧ j < (n : ℤ) := by
  unfold refreshPassPositionAccesses
  constructor
  · intro hj
    obtain ⟨m, hm, rfl⟩ := List.mem_map.mp hj
    have := List.mem_range.mp hm
    omega
  · rintro ⟨h0, hlt⟩
    refine List.mem_map.mpr ⟨j.toNat, List.mem_range.mpr ?_, ?_⟩ <;> omega

/-! ### Claim theorems -/

/-- C5: every `totalFrames` value drawn by `updateTarget` lies in
`[interpMin, interpMax]` for the configuration in effect at draw time
(given the invariant `interpMin ≤ interpMax` and a random scale in
`[0,1]`), and when `interpMax = interpMin` the draw always returns
exactly that value. -/
theorem duration_bounds (x : Interp) (mag phase fftBin scale : ℚ)
    (hmm : x.interpMin ≤ x.interpMax) (h0 : 0 ≤ scale) (h1 : scale ≤ 1) :
    x.interpMin ≤
      (updateTarget x mag phase fftBin scale).totalFrames (resolveBinTarget x fftBin) ∧
    (updateTarget x mag phase fftBin scale).totalFrames (resolveBinTarget x fftBin) ≤
      x.interpMax ∧
    (x.interpMax = x.interpMin →
      (updateTarget x mag phase fftBin scale).totalFrames (resolveBinTarget x fftBin) =
        x.interpMin) := by
  have htf : (updateTarget x mag phase fftBin scale).totalFrames
      (resolveBinTarget x fftBin) = irand x.interpMin x.interpMax scale := by
    simp [updateTarget]
  rw [htf]
  refine ⟨(irand_bounds _ _ _ hmm h0 h1).1, (irand_bounds _ _ _ hmm h0 h1).2, ?_⟩
  intro he
  rw [he]
  exact irand_degenerate _ _

/-- Witness for C5: a degenerate configuration (`interpMin = interpMax
= 20`) drawn at scale 1/2 yields exactly 20. -/
theorem duration_bounds_witness :
    (interp_new 8 4 10 0).interpMin ≤ (interp_new 8 4 10 0).interpMax ∧
    (0 : ℚ) ≤ 1/2 ∧ (1/2 : ℚ) ≤ 1 ∧
    ((interp_new 8 4 10 0).interpMin ≤
      (updateTarget (interp_new 8 4 10 0) 7 0 2 (1/2)).totalFrames
        (resolveBinTarget (interp_new 8 4 10 0) 2) ∧
     (updateTarget (interp_new 8 4 10 0) 7 0 2 (1/2)).totalFrames
        (resolveBinTarget (interp_new 8 4 10 0) 2) ≤ (interp_new 8 4 10 0).interpMax ∧
     ((interp_new 8 4 10 0).interpMax = (interp_new 8 4 10 0).interpMin →
       (updateTarget (interp_new 8 4 10 0) 7 0 2 (1/2)).totalFrames
         (resolveBinTarget (interp_new 8 4 10 0) 2) = (interp_new 8 4 10 0).interpMin)) :=
  ⟨by norm_num [interp_new, setInterpolationTime, secondsToFrames, clampQ, ratTrunc,
      MIN_LENGTH, MAX_LENGTH, MIN_VARIANCE, MAX_VARIANCE, MIN_INTERP_FRAMES],
   by norm_num, by norm_num,
   duration_bounds (interp_new 8 4 10 0) 7 0 2 (1/2)
     (by norm_num [interp_new, setInterpolationTime, secondsToFrames, clampQ, ratTrunc,
        MIN_LENGTH, MAX_LENGTH, MIN_VARIANCE, MAX_VARIANCE, MIN_INTERP_FRAMES])
     (by norm_num) (by norm_num)⟩

/-- C8: for any bin-index input — negative or `≥ transformSize`
included — both the step pass's and `updateTarget`'s resolved bins lie
in `[0, fftSize-1]`, and every per-bin table slot those passes touch is
the resolved bin, hence inside the table. -/
theorem index_safety (x : Interp) (hN : 1 ≤ x.fftSize) :
    (∀ idx : ℚ, 0 ≤ resolveBinStep x idx ∧ resolveBinStep x idx ≤ x.fftSize - 1) ∧
    (∀ fftBin : ℚ,
      0 ≤ resolveBinTarget x fftBin ∧ resolveBinTarget x fftBin ≤ x.fftSize - 1) ∧
    (∀ idx : ℚ, ∀ j ∈ stepPassSampleAccesses x idx, 0 ≤ j ∧ j ≤ x.fftSize - 1) ∧
    (∀ fftBin : ℚ, ∀ j ∈ updateTargetAccesses x fftBin,
      0 ≤ j ∧ j ≤ x.fftSize - 1) := by
  refine ⟨fun idx => resolveBinStep_bounds x idx hN,
    fun fftBin => resolveBinTarget_bounds x fftBin hN, ?_, ?_⟩
  · intro idx j hj
    simp only [stepPassSampleAccesses, List.mem_singleton] at hj
    subst hj
    exact resolveBinStep_bounds x idx hN
  · intro fftBin j hj
    simp only [updateTargetAccesses, List.mem_singleton] at hj
    subst hj
    exact resolveBinTarget_bounds x fftBin hN

/-- Witness for C8: a 4-bin engine, index inputs `-7` and `9.5`. -/
theorem index_safety_witness :
    1 ≤ (interp_new 44100 4 10 2).fftSize ∧
    (0 ≤ resolveBinStep (interp_new 44100 4 10 2) (-7) ∧
      resolveBinStep (interp_new 44100 4 10 2) (-7) ≤
        (interp_new 44100 4 10 2).fftSize - 1) ∧
    (0 ≤ resolveBinTarget (interp_new 44100 4 10 2) (19/2) ∧
      resolveBinTarget (interp_new 44100 4 10 2) (19/2) ≤
        (interp_new 44100 4 10 2).fftSize - 1) :=
  ⟨by norm_num [interp_new, setInterpolationTime],
   (index_safety (interp_new 44100 4 10 2)
     (by norm_num [interp_new, setInterpolationTime])).1 (-7),
   (index_safety (interp_new 44100 4 10 2)
     (by norm_num [interp_new, setInterpolationTime])).2.1 (19/2)⟩

/-- C6 (counterexample): the claim says `baseDurationFrames` is computed
with `round`; the code's `secondsToFrames` uses a truncating `(int)`
cast.  At `baseSeconds = 1`, `sampleRate = 44100`, `transformSize =
4096` the exact quotient is `10.766...`: the code stores `10`, while the
claimed `round` formula (floored to 1) yields `11`. -/
theorem secondsToFrames_truncates_not_rounds :
    (interp_new 44100 4096 1 2).interpLengthFrames = 10 ∧
      max (round ((clampQ 1 MIN_LENGTH MAX_LENGTH) * (44100 : ℚ) / 4096)) 1 = 11 := by
  constructor
  · norm_num [interp_new, setInterpolationTime, secondsToFrames, clampQ, ratTrunc,
      MIN_LENGTH, MAX_LENGTH, MIN_VARIANCE, MAX_VARIANCE, MIN_INTERP_FRAMES]
  · have h1 : clampQ 1 MIN_LENGTH MAX_LENGTH = 1 := by
      norm_num [clampQ, MIN_LENGTH, MAX_LENGTH]
    have h2 : round ((1 : ℚ) * 44100 / 4096) = 11 := by
      rw [round_eq, Int.floor_eq_iff] ; norm_num
    rw [h1, h2]
    norm_num

/-- C6 (amended): after `setInterpolationTime` with any inputs,
`interpLengthFrames` equals the *truncated* quotient
`trunc(clampedSeconds * sampleRate / fftSize)` floored to 1,
`interpVarianceFrames` equals the truncated variance quotient,
`interpMin = max(lengthFrames - varianceFrames, 1)` and
`interpMax = lengthFrames + varianceFrames`. -/
theorem derived_frame_computation (x : Interp) (l v : ℚ) :
    (setInterpolationTime x l v).interpLengthFrames =
      max (secondsToFrames (clampQ l MIN_LENGTH MAX_LENGTH) x.sampleRate x.fftSize) 1 ∧
    (setInterpolationTime x l v).interpVarianceFrames =
      secondsToFrames (clampQ v MIN_VARIANCE MAX_VARIANCE) x.sampleRate x.fftSize ∧
    (setInterpolationTime x l v).interpMin =
      max ((setInterpolationTime x l v).interpLengthFrames -
        (setInterpolationTime x l v).interpVarianceFrames) 1 ∧
    (setInterpolationTime x l v).interpMax =
      (setInterpolationTime x l v).interpLengthFrames +
        (setInterpolationTime x l v).interpVarianceFrames :=
  ⟨setInterpolationTime_lengthFrames x l v, setInterpolationTime_varianceFrames x l v,
    setInterpolationTime_min x l v, setInterpolationTime_max x l v⟩

/-- C7: after construction and after every `setInterpolationTime` call
(with any seconds arguments, given the data model's nonnegative sample
rate and bin count), `interpMin ≥ 1` and `interpMin ≤ interpMax`. -/
theorem configuration_invariant (x : Interp) (l v : ℚ) (sr N : ℤ)
    (hsr : 0 ≤ x.sampleRate) (hN : 0 ≤ x.fftSize) (hsr2 : 0 ≤ sr) (hN2 : 0 ≤ N) :
    (1 ≤ (setInterpolationTime x l v).interpMin ∧
      (setInterpolationTime x l v).interpMin ≤ (setInterpolationTime x l v).interpMax) ∧
    (1 ≤ (interp_new sr N l v).interpMin ∧
      (interp_new sr N l v).interpMin ≤ (interp_new sr N l v).interpMax) := by
  refine ⟨setInterpolationTime_invariant x l v hsr hN, ?_⟩
  unfold interp_new
  exact setInterpolationTime_invariant _ l v hsr2 hN2

/-- Witness for C7 at a concrete configuration. -/
theorem configuration_invariant_witness :
    (0 : ℤ) ≤ (interp_new 8 4 10 0).sampleRate ∧
    (0 : ℤ) ≤ (interp_new 8 4 10 0).fftSize ∧
    ((1 ≤ (setInterpolationTime (interp_new 8 4 10 0) 10 0).interpMin ∧
      (setInterpolationTime (interp_new 8 4 10 0) 10 0).interpMin ≤
        (setInterpolationTime (interp_new 8 4 10 0) 10 0).interpMax) ∧
    (1 ≤ (interp_new 8 4 10 0).interpMin ∧
      (interp_new 8 4 10 0).interpMin ≤ (interp_new 8 4 10 0).interpMax)) :=
  ⟨by norm_num [interp_new, setInterpolationTime],
   by norm_num [interp_new, setInterpolationTime],
   configuration_invariant (interp_new 8 4 10 0) 10 0 8 4
     (by norm_num [interp_new, setInterpolationTime])
     (by norm_num [interp_new, setInterpolationTime]) (by norm_num) (by norm_num)⟩

/-- C3 (code divergence): `interp_dsp64` stores the new sample rate but
leaves the derived frame counts untouched, contradicting both the spec
and the struct's own field comments
(`interpLengthFrames; // (interpLengthSecs * sampleRate) / fftSize`).
Engine created at 44100 Hz with length 10 s and `fftSize` 4096 stores
`interpLengthFrames = 107`; after the host reports 88200 Hz the stored
count is still 107 while the documented recomputation yields 215. -/
theorem dsp64_does_not_recompute_frames :
    (interp_dsp64 (interp_new 44100 4096 10 2) 88200).sampleRate = 88200 ∧
    (interp_dsp64 (interp_new 44100 4096 10 2) 88200).interpLengthFrames = 107 ∧
    secondsToFrames (interp_dsp64 (interp_new 44100 4096 10 2) 88200).interpLengthSecs
      (interp_dsp64 (interp_new 44100 4096 10 2) 88200).sampleRate
      (interp_dsp64 (interp_new 44100 4096 10 2) 88200).fftSize = 215 ∧
    (107 : ℤ) ≠ 215 := by
  refine ⟨rfl, ?_, ?_, by norm_num⟩
  · norm_num [interp_dsp64, interp_new, setInterpolationTime, secondsToFrames,
      clampQ, ratTrunc, MIN_LENGTH, MAX_LENGTH, MIN_VARIANCE, MAX_VARIANCE,
      MIN_INTERP_FRAMES]
  · norm_num [interp_dsp64, interp_new, setInterpolationTime, secondsToFrames,
      clampQ, ratTrunc, MIN_LENGTH, MAX_LENGTH, MIN_VARIANCE, MAX_VARIANCE,
      MIN_INTERP_FRAMES]

/-- C4 (counterexample): immediately after construction the
`updateTarget` flag array is zero-filled (`sysmem_newptrclear`), so
`needsNewTarget` is *false* — not true as claimed; the flags are only
raised later, by `interp_dsp64` when audio starts. -/
theorem construction_flag_not_set :
    (interp_new 44100 16 10 2).updateTargetFlag 0 = 0 ∧
      (interp_new 44100 16 10 2).updateTargetFlag 0 ≠ 1 := by
  exact ⟨rfl, by norm_num [interp_new, setInterpolationTime]⟩

/-- C4 (amended): after construction every per-bin table entry is
zero-initialized with the `updateTarget` flag *false*; the flag of every
bin is then set to 1 by `interp_dsp64` when audio is started, which runs
before the first perform block, so the first block still captures its
first targets from live input. -/
theorem construction_zero_init (sr N : ℤ) (l v : ℚ) (sr2 i : ℤ)
    (h0 : 0 ≤ i) (hN : i < N) :
    (interp_new sr N l v).currMag i = 0 ∧
    (interp_new sr N l v).currPhase i = 0 ∧
    (interp_new sr N l v).targetMag i = 0 ∧
    (interp_new sr N l v).targetPhase i = 0 ∧
    (interp_new sr N l v).incMag i = 0 ∧
    (interp_new sr N l v).incPhase i = 0 ∧
    (interp_new sr N l v).totalFrames i = 0 ∧
    (interp_new sr N l v).frameCount i = 0 ∧
    (interp_new sr N l v).updateTargetFlag i = 0 ∧
    (interp_dsp64 (interp_new sr N l v) sr2).updateTargetFlag i = 1 := by
  refine ⟨rfl, rfl, rfl, rfl, rfl, rfl, rfl, rfl, rfl, ?_⟩
  simp [interp_dsp64, interp_new, setInterpolationTime, h0, hN]

/-- Witness for C4's amended statement at a concrete engine and bin. -/
theorem construction_zero_init_witness :
    (0 : ℤ) ≤ 3 ∧ (3 : ℤ) < 16 ∧
    ((interp_new 44100 16 10 2).currMag 3 = 0 ∧
     (interp_dsp64 (interp_new 44100 16 10 2) 48000).updateTargetFlag 3 = 1) :=
  ⟨by norm_num, by norm_num,
    (construction_zero_init 44100 16 10 2 48000 3 (by norm_num) (by norm_num)).1,
    (construction_zero_init 44100 16 10 2 48000 3 (by norm_num) (by norm_num)).2.2.2.2.2.2.2.2.2⟩

/-- C1: at a leg boundary (the refresh pass fires at position `i`, and
the bin-index input at `i` resolves to `i`, the convention of the
enclosing `pfft~` context), the bin's `current` value right after the
refresh equals its `target` value from the previous leg, the new target
is the live input, and the new increments are derived from exactly that
boundary value — so the emitted signal never jumps at a leg boundary. -/
theorem leg_boundary_continuity (x : Interp) (inMag inPhase inIndex scales : ℕ → ℚ)
    (i : ℕ) (hflag : x.updateTargetFlag (i : ℤ) ≠ 0)
    (hres : resolveBinTarget x (inIndex i) = (i : ℤ)) :
    (refreshStep inMag inPhase inIndex scales x i).currMag (i : ℤ) =
      x.targetMag (i : ℤ) ∧
    (refreshStep inMag inPhase inIndex scales x i).currPhase (i : ℤ) =
      x.targetPhase (i : ℤ) ∧
    (refreshStep inMag inPhase inIndex scales x i).targetMag (i : ℤ) = inMag i ∧
    (refreshStep inMag inPhase inIndex scales x i).targetPhase (i : ℤ) = inPhase i ∧
    (refreshStep inMag inPhase inIndex scales x i).incMag (i : ℤ) =
      (inMag i - x.targetMag (i : ℤ)) /
        (((refreshStep inMag inPhase inIndex scales x i).totalFrames (i : ℤ) : ℤ) : ℚ) ∧
    (refreshStep inMag inPhase inIndex scales x i).incPhase (i : ℤ) =
      (inPhase i - x.targetPhase (i : ℤ)) /
        (((refreshStep inMag inPhase inIndex scales x i).totalFrames (i : ℤ) : ℤ) : ℚ) := by
  have hres' : resolveBinTarget (carryTarget x (i : ℤ)) (inIndex i) = (i : ℤ) := by
    rw [resolveBinTarget_congr _ x _ (carryTarget_fftSize x _)]
    exact hres
  rw [refreshStep_eq _ _ _ _ _ _ hflag]
  rw [updateTarget_currMag, updateTarget_currPhase, updateTarget_targetMag,
    updateTarget_targetPhase, updateTarget_incMag, updateTarget_incPhase,
    updateTarget_totalFrames, hres']
  simp [Function.update_same, carryTarget_currMag_self, carryTarget_currPhase_self]

/-- Witness for C1: the refresh at position 0 of `refreshExampleState`
with identity bin-index input carries the old target 5 into `current`
and captures the live input 7 as the new target. -/
theorem leg_boundary_continuity_witness :
    refreshExampleState.updateTargetFlag ((0 : ℕ) : ℤ) ≠ 0 ∧
    resolveBinTarget refreshExampleState 0 = ((0 : ℕ) : ℤ) ∧
    ((refreshStep (fun _ => 7) (fun _ => 0) (fun _ => 0) (fun _ => 0)
        refreshExampleState 0).currMag 0 = 5 ∧
     (refreshStep (fun _ => 7) (fun _ => 0) (fun _ => 0) (fun _ => 0)
        refreshExampleState 0).targetMag 0 = 7) := by
  have hflag : refreshExampleState.updateTargetFlag ((0 : ℕ) : ℤ) ≠ 0 := by
    norm_num [refreshExampleState]
  have hres : resolveBinTarget refreshExampleState 0 = ((0 : ℕ) : ℤ) := by
    norm_num [resolveBinTarget, refreshExampleState, interp_new, setInterpolationTime,
      clampQ, ratTrunc]
  have h := leg_boundary_continuity refreshExampleState (fun _ => 7) (fun _ => 0)
    (fun _ => 0) (fun _ => 0) 0 hflag hres
  refine ⟨hflag, hres, ?_, ?_⟩
  · have := h.1
    simpa [refreshExampleState] using this
  · have := h.2.2.1
    simpa using this

/-- C2 (counterexample): the claim says the refresh pass calls
`acquireNewTarget` with bin index `i`; the code passes the bin-index
*input* `in_index[i]`.  With position 0 due for refresh, input
magnitude 7 and bin-index input 3, the new target 7 lands at bin 3
while bin 0's target stays 5 — under the claim bin 0 would read 7. -/
theorem refresh_acquire_bin_counterexample :
    (refreshStep (fun _ => 7) (fun _ => 0) (fun _ => 3) (fun _ => 0)
        refreshExampleState 0).targetMag 0 = 5 ∧
    (refreshStep (fun _ => 7) (fun _ => 0) (fun _ => 3) (fun _ => 0)
        refreshExampleState 0).targetMag 3 = 7 ∧
    (5 : ℚ) ≠ 7 := by
  have hflag : refreshExampleState.updateTargetFlag ((0 : ℕ) : ℤ) ≠ 0 := by
    norm_num [refreshExampleState]
  have hb : resolveBinTarget refreshExampleState 3 = 3 := by
    norm_num [resolveBinTarget, refreshExampleState, interp_new, setInterpolationTime,
      clampQ, ratTrunc]
  have hb' : resolveBinTarget (carryTarget refreshExampleState ((0 : ℕ) : ℤ)) 3 = 3 := by
    rw [resolveBinTarget_congr _ refreshExampleState _ (carryTarget_fftSize _ _)]
    exact hb
  rw [refreshStep_eq _ _ _ _ _ _ hflag, updateTarget_targetMag, hb']
  refine ⟨?_, ?_, by norm_num⟩
  · rw [Function.update_noteq (by norm_num)]
    rfl
  · simp

/-- C2 (amended): for every position `i` of the block, the refresh pass
reads the `updateTarget` flag at sample position `i`; when it is set it
carries the previous target into `current` at position `i` and calls
`updateTarget` with the magnitude/phase inputs at `i` and the *bin-index
input* `in_index[i]` (clamped inside), so the acquisition lands at the
resolved input bin, not necessarily at `i`. -/
theorem refresh_pass_convention (x : Interp) (inMag inPhase inIndex scales : ℕ → ℚ)
    (i : ℕ) (b : ℤ) (hflag : x.updateTargetFlag (i : ℤ) ≠ 0)
    (hb : resolveBinTarget x (inIndex i) = b) :
    (refreshStep inMag inPhase inIndex scales x i).currMag (i : ℤ) =
      x.targetMag (i : ℤ) ∧
    (refreshStep inMag inPhase inIndex scales x i).currPhase (i : ℤ) =
      x.targetPhase (i : ℤ) ∧
    (refreshStep inMag inPhase inIndex scales x i).targetMag b = inMag i ∧
    (refreshStep inMag inPhase inIndex scales x i).targetPhase b = inPhase i ∧
    (refreshStep inMag inPhase inIndex scales x i).totalFrames b =
      irand x.interpMin x.interpMax (scales i) ∧
    (refreshStep inMag inPhase inIndex scales x i).updateTargetFlag b = 0 ∧
    (refreshStep inMag inPhase inIndex scales x i).frameCount b = 0 := by
  have hb' : resolveBinTarget (carryTarget x (i : ℤ)) (inIndex i) = b := by
    rw [resolveBinTarget_congr _ x _ (carryTarget_fftSize x _)]
    exact hb
  rw [refreshStep_eq _ _ _ _ _ _ hflag]
  rw [updateTarget_currMag, updateTarget_currPhase, updateTarget_targetMag,
    updateTarget_targetPhase, updateTarget_totalFrames, updateTarget_flag,
    updateTarget_frameCount, hb']
  simp [Function.update_same, carryTarget_currMag_self, carryTarget_currPhase_self,
    carryTarget]

/-- Witness for C2's amended statement: refresh at position 0 with
bin-index input 3 — the acquisition lands at bin 3. -/
theorem refresh_pass_convention_witness :
    refreshExampleState.updateTargetFlag ((0 : ℕ) : ℤ) ≠ 0 ∧
    resolveBinTarget refreshExampleState 3 = 3 ∧
    ((refreshStep (fun _ => 7) (fun _ => 0) (fun _ => 3) (fun _ => 0)
        refreshExampleState 0).currMag 0 = 5 ∧
     (refreshStep (fun _ => 7) (fun _ => 0) (fun _ => 3) (fun _ => 0)
        refreshExampleState 0).targetPhase 3 = 0 ∧
     (refreshStep (fun _ => 7) (fun _ => 0) (fun _ => 3) (fun _ => 0)
        refreshExampleState 0).updateTargetFlag 3 = 0) := by
  have hflag : refreshExampleState.updateTargetFlag ((0 : ℕ) : ℤ) ≠ 0 := by
    norm_num [refreshExampleState]
  have hb : resolveBinTarget refreshExampleState 3 = 3 := by
    norm_num [resolveBinTarget, refreshExampleState, interp_new, setInterpolationTime,
      clampQ, ratTrunc]
  have h := refresh_pass_convention refreshExampleState (fun _ => 7) (fun _ => 0)
    (fun _ => 3) (fun _ => 0) 0 3 hflag hb
  refine ⟨hflag, hb, ?_, ?_, ?_⟩
  · have := h.1
    simpa [refreshExampleState] using this
  · exact h.2.2.2.1
  · exact h.2.2.2.2.2.1

/-- C9: iterating the step pass with a fixed resolved bin `b`, starting
from `current = initial` with `increment = (target - initial) / T`,
yields `current = initial + k * increment` after `k` steps, and exactly
`current = target` at `k = T` (exact in the rational model, which is the
floating-point computation with no rounding). -/
theorem linear_approach (x : Interp) (idx : ℚ) (b : ℤ) (T : ℕ)
    (initM tgtM initP tgtP : ℚ) (hb : resolveBinStep x idx = b) (hT : T ≠ 0)
    (hcm : x.currMag b = initM) (him : x.incMag b = (tgtM - initM) / (T : ℚ))
    (hcp : x.currPhase b = initP) (hip : x.incPhase b = (tgtP - initP) / (T : ℚ)) :
    (∀ k : ℕ,
      ((performStepState idx)^[k] x).currMag b =
        initM + (k : ℚ) * ((tgtM - initM) / (T : ℚ)) ∧
      ((performStepState idx)^[k] x).currPhase b =
        initP + (k : ℚ) * ((tgtP - initP) / (T : ℚ))) ∧
    ((performStepState idx)^[T] x).currMag b = tgtM ∧
    ((performStepState idx)^[T] x).currPhase b = tgtP := by
  have hTQ : (T : ℚ) ≠ 0 := Nat.cast_ne_zero.mpr hT
  have hm : ∀ k : ℕ, ((performStepState idx)^[k] x).currMag b =
      initM + (k : ℚ) * ((tgtM - initM) / (T : ℚ)) := by
    intro k
    rw [iterate_performStep_currMag idx x b hb k, hcm, him]
  have hp : ∀ k : ℕ, ((performStepState idx)^[k] x).currPhase b =
      initP + (k : ℚ) * ((tgtP - initP) / (T : ℚ)) := by
    intro k
    rw [iterate_performStep_currPhase idx x b hb k, hcp, hip]
  refine ⟨fun k => ⟨hm k, hp k⟩, ?_, ?_⟩
  · rw [hm T]
    field_simp
  · rw [hp T]
    field_simp

/-- Witness for C9: a leg of length 2 from magnitude 1 to 2 and phase 0
to 1/2 lands exactly on its targets after 2 steps. -/
theorem linear_approach_witness :
    resolveBinStep linearExampleState 0 = 0 ∧
    (2 : ℕ) ≠ 0 ∧
    linearExampleState.currMag 0 = 1 ∧
    linearExampleState.incMag 0 = (2 - 1) / ((2 : ℕ) : ℚ) ∧
    (((performStepState 0)^[2] linearExampleState).currMag 0 = 2 ∧
     ((performStepState 0)^[2] linearExampleState).currPhase 0 = 1/2) := by
  have hb : resolveBinStep linearExampleState 0 = 0 := by
    norm_num [resolveBinStep, linearExampleState, interp_new, setInterpolationTime,
      clampZ, ratTrunc]
  have h := linear_approach linearExampleState 0 0 2 1 2 0 (1/2) hb (by norm_num)
    (by norm_num [linearExampleState]) (by norm_num [linearExampleState])
    (by norm_num [linearExampleState]) (by norm_num [linearExampleState])
  exact ⟨hb, by norm_num, by norm_num [linearExampleState],
    by norm_num [linearExampleState], h.2.1, h.2.2⟩

/-- C10: the refresh pass reads the per-bin tables at every unclamped
sample position `i < blockLength`, so all those accesses lie inside the
`fftSize`-slot tables exactly when `blockLength ≤ fftSize`; under that
precondition no out-of-bounds access occurs in the pass. -/
theorem refresh_pass_block_bound (x : Interp) (n : ℕ) (hN : 0 ≤ x.fftSize) :
    (∀ j ∈ refreshPassPositionAccesses n, 0 ≤ j ∧ j < x.fftSize) ↔
      (n : ℤ) ≤ x.fftSize := by
  constructor
  · intro h
    rcases Nat.eq_zero_or_pos n with h0 | h0
    · subst h0
      simpa using hN
    · have hmem : ((n : ℤ) - 1) ∈ refreshPassPositionAccesses n :=
        (mem_refreshPassPositionAccesses n _).mpr (by omega)
      have hlt := (h _ hmem).2
      omega
  · intro h j hj
    have := (mem_refreshPassPositionAccesses n j).mp hj
    omega

/-- Witness for C10: a block of 4 frames against a 4-bin engine stays in
bounds. -/
theorem refresh_pass_block_bound_witness :
    (0 : ℤ) ≤ (interp_new 44100 4 10 2).fftSize ∧
    (∀ j ∈ refreshPassPositionAccesses 4,
      0 ≤ j ∧ j < (interp_new 44100 4 10 2).fftSize) := by
  have hN : (0 : ℤ) ≤ (interp_new 44100 4 10 2).fftSize := by
    norm_num [interp_new, setInterpolationTime]
  exact ⟨hN, (refresh_pass_block_bound (interp_new 44100 4 10 2) 4 hN).mpr
    (by norm_num [interp_new, setInterpolationTime])⟩

end BInterpolate
